import Mathlib

/-!
# Verification of the VCF annotation pipeline

Shallow embedding of the pipeline: the variant extractor and statistics
aggregator (`analyze_vcf.py`: `parse_vcf`, `compute_statistics`, `main`,
`convert_to_spdi`) and the rate-limited, persistently cached lookup client
(`clinvar_lookup.py`: `ClinVarLookup`).

Conventions of the embedding:
* Python floats are modelled as `ℚ`, Python ints as `ℤ` (or `ℕ` where the
  source guarantees non-negativity), Python dicts as insertion-ordered
  association lists.
* Code that can raise is modelled in `Except Unit`; a raised exception is
  `Except.error ()`.
* Wall-clock time is modelled as an exact rational clock: `time.time()`
  reads the current instant, and `time.sleep(d)` advances it by exactly `d`.
-/

namespace VcfPipeline

/-- A retained variant, as built by `parse_vcf` (`analyze_vcf.py`, lines 34-42):
chromosome, 1-based position, reference allele, first alternate allele,
allele frequency, read depth, quality score. -/
structure Variant where
  chrom : String
  pos : ℤ
  ref : String
  alt : String
  af : ℚ
  dp : ℤ
  qual : ℚ
deriving Repr, DecidableEq

/-- A raw source record as exposed by the record source: chromosome,
1-based position, reference allele, ordered alternate alleles, an optional
quality score (`record.qual` may be `None`), and the optional info fields
`DP` (depth) and `AF` (list-valued allele frequency). -/
structure RawRecord where
  chrom : String
  pos : ℤ
  ref : String
  alts : List String
  qual : Option ℚ
  infoDP : Option ℤ
  infoAF : Option (List ℚ)
deriving Repr, DecidableEq

/-- Allele-frequency extraction of `parse_vcf` (line 31):
`record.info.get('AF', [0])[0] if 'AF' in record.info else 0`.
If `AF` is absent the default is `0`; if `AF` is present, the first element
of its list is taken, and an empty list raises `IndexError`. -/
def extractAF (r : RawRecord) : Except Unit ℚ :=
  match r.infoAF with
  | none => .ok 0
  | some [] => .error ()
  | some (x :: _) => .ok x

/-- First-alternate extraction of `parse_vcf` (line 38):
`str(record.alts[0]) if record.alts else ''`. -/
def extractAlt (r : RawRecord) : String :=
  match r.alts with
  | [] => ""
  | a :: _ => a

/-- Function `parse_vcf` (`analyze_vcf.py`, lines 12-54) over an in-memory record
sequence: quality defaults to 0 when missing, depth defaults to 0 when the
info map lacks `DP`; a record with `qual < 30 or dp < 10` is skipped;
otherwise one `Variant` is emitted.  An exception while processing a record
(the `IndexError` of the `AF` extraction) aborts the whole run. -/
def parse_vcf : List RawRecord → Except Unit (List Variant)
  | [] => .ok []
  | r :: rest =>
    let qual := r.qual.getD 0
    let dp := r.infoDP.getD 0
    if qual < 30 ∨ dp < 10 then
      parse_vcf rest
    else
      match extractAF r with
      | .error e => .error e
      | .ok af =>
        (parse_vcf rest).map
          (fun vs => ⟨r.chrom, r.pos, r.ref, extractAlt r, af, dp, qual⟩ :: vs)

/-- Python `int()` truncation toward zero, applied to a rational. -/
def truncInt (q : ℚ) : ℤ :=
  if q < 0 then ⌈q⌉ else ⌊q⌋

/-- The histogram update of `compute_statistics` (lines 94-98) for one
allele-frequency value.  The source guard is `if af <= 1.0` only; the bin
index is `min(int(af * 10), 9)` and the bin key is built from it, so a
negative bin index produces a key absent from `af_hist` and the increment
raises `KeyError`. -/
def buildHist : List ℚ → (Fin 10 → ℕ) → Except Unit (Fin 10 → ℕ)
  | [], acc => .ok acc
  | af :: rest, acc =>
    if af ≤ 1 then
      let b : ℤ := min (truncInt (af * 10)) 9
      if h : 0 ≤ b ∧ b < 10 then
        buildHist rest (Function.update acc ⟨b.toNat, by omega⟩ (acc ⟨b.toNat, by omega⟩ + 1))
      else
        .error ()
    else
      buildHist rest acc

/-- SNP classification of `compute_statistics` (line 68):
`len(v['ref']) == 1 and len(v['alt']) == 1`. -/
def isSNP (v : Variant) : Bool :=
  v.ref.length == 1 && v.alt.length == 1

/-- One step of the per-chromosome counting loop (line 79):
`chrom_counts[chrom] = chrom_counts.get(chrom, 0) + 1` on an
insertion-ordered dict. -/
def bumpChrom (chrom : String) : List (String × ℕ) → List (String × ℕ)
  | [] => [(chrom, 1)]
  | (c, n) :: rest =>
    if c = chrom then (c, n + 1) :: rest else (c, n) :: bumpChrom chrom rest

/-- The per-chromosome counts accumulated over the variant list. -/
def chromCountsOf (variants : List Variant) : List (String × ℕ) :=
  variants.foldl (fun m v => bumpChrom v.chrom m) []

/-- Python `max(items, key=count)` over the insertion-ordered count list:
the first item achieving the maximum wins (a later item replaces the
current champion only when strictly greater). -/
def maxByCountGo (c : String) (n : ℕ) : List (String × ℕ) → String
  | [] => c
  | (c', n') :: rest =>
    if n < n' then maxByCountGo c' n' rest else maxByCountGo c n rest

/-- Field `most_common_chrom` (line 87): first-seen maximum, `None` on empty. -/
def maxByCount : List (String × ℕ) → Option String
  | [] => none
  | (c, n) :: rest => some (maxByCountGo c n rest)

/-- The `Statistics` record returned by `compute_statistics`
(lines 100-111).  The histogram is a total map from bin index to count
(bin `i` is the source key `"0.i-0.(i+1)"`). -/
structure Stats where
  total : ℕ
  snps : ℕ
  indels : ℕ
  snpPct : ℚ
  indelPct : ℚ
  mostCommonChrom : Option String
  afHist : Fin 10 → ℕ
  afValues : List ℚ
  dpValues : List ℤ
  chromCounts : List (String × ℕ)

/-- Function `compute_statistics` (`analyze_vcf.py`, lines 56-111).  The whole call
raises (`Except.error`) exactly when the histogram loop raises `KeyError`. -/
def compute_statistics (variants : List Variant) : Except Unit Stats :=
  let snps := (variants.filter (fun v => isSNP v)).length
  let indels := (variants.filter (fun v => !(isSNP v))).length
  let afValues := variants.map (·.af)
  let dpValues := variants.map (·.dp)
  let chromCounts := chromCountsOf variants
  let total := variants.length
  let snpPct : ℚ := if 0 < total then (snps : ℚ) / (total : ℚ) * 100 else 0
  let indelPct : ℚ := if 0 < total then (indels : ℚ) / (total : ℚ) * 100 else 0
  match buildHist afValues (fun _ => 0) with
  | .error e => .error e
  | .ok hist =>
    .ok ⟨total, snps, indels, snpPct, indelPct, maxByCount chromCounts,
          hist, afValues, dpValues, chromCounts⟩

/-- Sum of the ten histogram bin counts. -/
def statsHistSum (s : Stats) : ℕ :=
  ∑ i : Fin 10, s.afHist i

/-! ## Coordinate translation (`convert_to_spdi`, `analyze_vcf.py` lines 171-224) -/

/-- The fixed GRCh38 chromosome → RefSeq accession table (lines 184-210). -/
def chromMapping : List (String × String) :=
  [("1", "NC_000001.11"), ("2", "NC_000002.12"), ("3", "NC_000003.12"),
   ("4", "NC_000004.12"), ("5", "NC_000005.10"), ("6", "NC_000006.12"),
   ("7", "NC_000007.14"), ("8", "NC_000008.11"), ("9", "NC_000009.12"),
   ("10", "NC_000010.11"), ("11", "NC_000011.10"), ("12", "NC_000012.12"),
   ("13", "NC_000013.11"), ("14", "NC_000014.9"), ("15", "NC_000015.10"),
   ("16", "NC_000016.10"), ("17", "NC_000017.11"), ("18", "NC_000018.10"),
   ("19", "NC_000019.10"), ("20", "NC_000020.11"), ("21", "NC_000021.9"),
   ("22", "NC_000022.11"), ("X", "NC_000023.11"), ("Y", "NC_000024.10"),
   ("MT", "NC_012920.1")]

/-- Python `s.replace('chr', '')` on the character list: scan left to
right, deleting every (non-overlapping) occurrence of `chr`. -/
def removeChr : List Char → List Char
  | 'c' :: 'h' :: 'r' :: rest => removeChr rest
  | c :: rest => c :: removeChr rest
  | [] => []

/-- Line 213: `clean_chrom = chrom.replace('chr', '')`. -/
def cleanChrom (s : String) : String :=
  ⟨removeChr s.data⟩

/-- Occurrence test: does `chr` occur anywhere in the character list? -/
def hasChr : List Char → Bool
  | 'c' :: 'h' :: 'r' :: _ => true
  | _ :: rest => hasChr rest
  | [] => false

/-- Function `convert_to_spdi` (lines 171-224): strip `chr` occurrences, look the
label up in the fixed table (`None`, the failure sentinel, when absent —
the table has no empty accession, so the source's truthiness test on
`seq_id` coincides with presence), subtract 1 from the position and format
`{accession}:{zero_based_position}:{ref}:{alt}`. -/
def convert_to_spdi (chrom : String) (pos : ℤ) (ref alt : String) : Option String :=
  match (chromMapping.lookup (cleanChrom chrom)).filter (· ≠ "") with
  | none => none
  | some seqId => some (seqId ++ ":" ++ toString (pos - 1) ++ ":" ++ ref ++ ":" ++ alt)

/-! ## The lookup client (`clinvar_lookup.py`, `ClinVarLookup`) -/

/-- Python dict insertion on an insertion-ordered association list:
overwrite in place if the key is present, else append. -/
def dictInsert (k v : String) : List (String × String) → List (String × String)
  | [] => [(k, v)]
  | (k', v') :: rest =>
    if k' = k then (k, v) :: rest else (k', v') :: dictInsert k v rest

/-- The mutable state of a `ClinVarLookup` instance: the cache mapping and
the rate-limiter timestamp `last_call_time`. -/
structure ClientState where
  cache : List (String × String)
  lastCallTime : ℚ
deriving Repr, DecidableEq

/-- The rate-limiting block of `get_clinical_significance` (lines 53-57):
`sleep(1 - (now - last))` when `now - last < 1`, else no sleep. -/
def sleepFor (last now : ℚ) : ℚ :=
  if now - last < 1 then 1 - (now - last) else 0

/-- The value recorded into `last_call_time` (line 57): the clock reading
after the optional sleep, i.e. `now + sleepFor last now` under the exact
clock model. -/
def acquireUpdate (last now : ℚ) : ℚ :=
  now + sleepFor last now

/-- The `clinical_significance` field of a parsed 200-response body, as the
extraction on lines 67-70 distinguishes the cases: the key may be absent
(default `{}`), present as a dict without `description`, present as a dict
with a `description` string, or present as a non-dict value (whose `.get`
raises `AttributeError`). -/
inductive SigField where
  | missing : SigField
  | descMissing : SigField
  | desc : String → SigField
  | nonDict : SigField
deriving Repr, DecidableEq

/-- The outcome of the HTTP GET on line 62: a response with a status code
and a body (whose JSON parse on line 65 may itself raise), or a raised
transport error. -/
inductive RemoteOutcome where
  | response : ℕ → Except Unit SigField → RemoteOutcome
  | transportError : RemoteOutcome
deriving Repr

/-- Lines 67-70: `data.get('clinical_significance', {}).get('description',
'Unknown')`; raises when `clinical_significance` is a non-dict. -/
def extractSignificance : SigField → Except Unit String
  | .missing => .ok "Unknown"
  | .descMissing => .ok "Unknown"
  | .desc s => .ok s
  | .nonDict => .error ()

/-- Method `get_clinical_significance` (`clinvar_lookup.py`, lines 40-90) as a
state transformer.  Inputs: the identifier, the current state, the clock
reading `now` at line 54, and the remote outcome the network would produce.
Output: the returned label, the new state, and whether a remote query was
issued.  Cache hit returns immediately; on a miss the rate limiter runs
first, then the outcome is classified: 200 with an extractable body and 404
write the cache (and persist it), every other outcome leaves the cache
unchanged and returns a sentinel (`API Error` for a bad status, `Error`
for a raised transport/parse/extract error). -/
def get_clinical_significance (spdi : String) (st : ClientState) (now : ℚ)
    (remote : RemoteOutcome) : String × ClientState × Bool :=
  match st.cache.lookup spdi with
  | some v => (v, st, false)
  | none =>
    let st' : ClientState := { st with lastCallTime := acquireUpdate st.lastCallTime now }
    match remote with
    | .transportError => ("Error", st', true)
    | .response status body =>
      if status = 200 then
        match body with
        | .error _ => ("Error", st', true)
        | .ok sv =>
          match extractSignificance sv with
          | .error _ => ("Error", st', true)
          | .ok sig => (sig, { st' with cache := dictInsert spdi sig st'.cache }, true)
      else if status = 404 then
        ("Not found in ClinVar",
         { st' with cache := dictInsert spdi "Not found in ClinVar" st'.cache }, true)
      else
        ("API Error", st', true)

/-! ## Cache loading (`_load_cache`, `clinvar_lookup.py` lines 25-31) -/

/-- The possible outcomes of `open(self.cache_file, 'r')` followed by a
full read: the file may be absent (`FileNotFoundError`), present but not
openable/readable (`PermissionError`), or readable with some contents. -/
inductive FileReadResult where
  | notFound : FileReadResult
  | permissionDenied : FileReadResult
  | content : String → FileReadResult
deriving Repr, DecidableEq

/-- The exceptions `_load_cache` can surface. -/
inductive LoadError where
  | permissionError : LoadError
deriving Repr, DecidableEq

/-- Method `_load_cache` (lines 25-31): `json.load` the file, catching exactly
`FileNotFoundError` and `json.JSONDecodeError` into an empty mapping.
`parseJson s = none` models `json.load` raising `JSONDecodeError` on
contents `s`; a `PermissionError` from `open` is caught by neither clause
and propagates. -/
def load_cache (parseJson : String → Option (List (String × String))) :
    FileReadResult → Except LoadError (List (String × String))
  | .notFound => .ok []
  | .permissionDenied => .error .permissionError
  | .content s =>
    match parseJson s with
    | none => .ok []
    | some m => .ok m

/-! ## The orchestrator (`main`, `analyze_vcf.py` lines 113-169) -/

/-- The annotation loop of `main` (lines 125-138) over the capped variant
slice, with the lookup client abstracted as a label oracle
`lookup : spdi → label`.  For each variant: translate to SPDI; on a truthy
SPDI (`if spdi:`) query the client and record the outbound query, otherwise
attach the fixed label `Invalid format` with no query.  Returns the
annotated slice (in order) and the ordered list of identifiers sent to the
client. -/
def annotateLoop (lookup : String → String) :
    List Variant → List (Variant × String) × List String
  | [] => ([], [])
  | v :: rest =>
    let r := annotateLoop lookup rest
    match convert_to_spdi v.chrom v.pos v.ref v.alt with
    | some spdi =>
      if spdi = "" then ((v, "Invalid format") :: r.1, r.2)
      else ((v, lookup spdi) :: r.1, spdi :: r.2)
    | none => ((v, "Invalid format") :: r.1, r.2)

/-- The outputs of one `main` run: the full annotated variant list, the
identifiers queried remotely, the bounded listing written to
`variants.json`, and the statistics written to `analysis_results.json`. -/
structure MainResult where
  annotated : List (Variant × String)
  queries : List String
  limited : List (Variant × String)
  stats : Except Unit Stats

/-- Function `main` (lines 113-169) after extraction, over the retained variant
list: annotate `variants[:300]` through translation and lookup, attach
`Not queried` to `variants[300:]`, write `variants[:1000]` to the bounded
listing, and compute statistics over the full list. -/
def runMain (lookup : String → String) (variants : List Variant) : MainResult :=
  let r := annotateLoop lookup (variants.take 300)
  let annotated := r.1 ++ (variants.drop 300).map (fun v => (v, "Not queried"))
  ⟨annotated, r.2, annotated.take 1000, compute_statistics variants⟩

/-! ## Helper lemmas -/

theorem removeChr_cons_ne (c : Char) (rest : List Char)
    (hne : ∀ rest', ¬(c = 'c' ∧ rest = 'h' :: 'r' :: rest')) :
    removeChr (c :: rest) = c :: removeChr rest := by
  rw [removeChr.eq_def]
  split
  · rename_i rest' heq
    injection heq with h1 h2
    exact absurd ⟨h1, h2⟩ (hne rest')
  · rename_i c' rest' hcond heq
    injection heq with h1 h2
    subst h1
    subst h2
    rfl
  · rename_i heq
    exact absurd heq (by simp)

theorem hasChr_cons_ne (c : Char) (rest : List Char)
    (hne : ∀ rest', ¬(c = 'c' ∧ rest = 'h' :: 'r' :: rest')) :
    hasChr (c :: rest) = hasChr rest := by
  rw [hasChr.eq_def]
  split
  · rename_i rest' heq
    injection heq with h1 h2
    exact absurd ⟨h1, h2⟩ (hne rest')
  · rename_i c' rest' hcond heq
    injection heq with h1 h2
    subst h1
    subst h2
    rfl
  · rename_i heq
    exact absurd heq (by simp)

theorem removeChr_of_not_hasChr : ∀ l, hasChr l = false → removeChr l = l := by
  intro l
  induction l using removeChr.induct with
  | case1 rest ih =>
    intro h
    simp [hasChr] at h
  | case2 c rest hne ih =>
    intro h
    have hne' : ∀ rest', ¬(c = 'c' ∧ rest = 'h' :: 'r' :: rest') := by
      intro rest' hc
      exact hne rest' hc.1 hc.2
    rw [removeChr_cons_ne c rest hne']
    rw [hasChr_cons_ne c rest hne'] at h
    rw [ih h]
  | case3 => intro _; rfl

theorem pred_of_filter_eq_some {α : Type} (o : Option α) (a : α) (p : α → Bool)
    (h : o.filter p = some a) : p a = true := by
  cases o with
  | none => simp [Option.filter] at h
  | some x =>
    simp only [Option.filter] at h
    split at h
    · injection h with h
      subst h
      assumption
    · cases h

theorem lookup_dictInsert_self (k v : String) (m : List (String × String)) :
    (dictInsert k v m).lookup k = some v := by
  induction m with
  | nil => simp [dictInsert, List.lookup]
  | cons p rest ih =>
    obtain ⟨k', v'⟩ := p
    simp only [dictInsert]
    split
    · simp [List.lookup]
    · rename_i he
      rw [List.lookup]
      have hkk : (k == k') = false := by
        simp only [beq_eq_false_iff_ne, ne_eq]
        intro hh
        exact he hh.symm
      rw [hkk]
      exact ih

/-! ## Claim theorems -/

/-- C4: every variant emitted by `parse_vcf` satisfies quality ≥ 30 and
depth ≥ 10, where a missing quality and a missing depth field each default
to 0 before the check (the defaults are applied by `Option.getD 0` in the
check itself); a record failing the check produces no output and no
error — prepending it to any record sequence leaves the result unchanged. -/
theorem parse_vcf_retained_invariant (records : List RawRecord) (vs : List Variant)
    (h : parse_vcf records = .ok vs) :
    (∀ v ∈ vs, 30 ≤ v.qual ∧ 10 ≤ v.dp) ∧
    (∀ r : RawRecord, r.qual.getD 0 < 30 ∨ r.infoDP.getD 0 < 10 →
      ∀ others : List RawRecord, parse_vcf (r :: others) = parse_vcf others) := by
  constructor
  · induction records generalizing vs with
    | nil =>
      simp only [parse_vcf] at h
      cases h
      simp
    | cons r rest ih =>
      simp only [parse_vcf] at h
      split at h
      · exact ih vs h
      · rename_i hcond
        cases hm : extractAF r with
        | error e =>
          rw [hm] at h
          cases h
        | ok af =>
          rw [hm] at h
          cases hr : parse_vcf rest with
          | error e =>
            rw [hr] at h
            cases h
          | ok vs' =>
            rw [hr] at h
            simp only [Except.map] at h
            cases h
            intro v hv
            rcases List.mem_cons.mp hv with hv | hv
            · subst hv
              constructor
              · by_contra hq
                exact hcond (Or.inl (by simpa using hq))
              · by_contra hd
                exact hcond (Or.inr (by simpa using hd))
            · exact ih vs' hr v hv
  · intro r hr others
    simp only [parse_vcf]
    rw [if_pos hr]

/-- Witness for C4 at a concrete record list: one passing record
(quality 50, depth 15) is retained and satisfies the invariant, and
prepending a failing record (missing quality) changes nothing. -/
theorem parse_vcf_retained_invariant_witness :
    (∀ v ∈ [(⟨"1", 100, "A", "T", mkRat 1 2, 15, 50⟩ : Variant)], 30 ≤ v.qual ∧ 10 ≤ v.dp) ∧
    parse_vcf [⟨"1", 100, "A", ["T"], none, some 15, some [mkRat 1 2]⟩] =
      parse_vcf [] := by
  have h := parse_vcf_retained_invariant
    [⟨"1", 100, "A", ["T"], some 50, some 15, some [mkRat 1 2]⟩]
    [⟨"1", 100, "A", "T", mkRat 1 2, 15, 50⟩]
    (by with_unfolding_all rfl)
  exact ⟨h.1, h.2 ⟨"1", 100, "A", ["T"], none, some 15, some [mkRat 1 2]⟩
    (Or.inl (by with_unfolding_all decide)) []⟩

/-- C5: a cache hit returns the cached label, issues no remote query, and
leaves the whole client state (cache and rate-limiter timestamp) unchanged;
and after storing `(spdi, label)` in the cache, a resolve of `spdi` returns
`label` with no remote call and an unchanged state. -/
theorem cache_hit_frame (spdi v label : String) (st : ClientState) (now : ℚ)
    (remote remote' : RemoteOutcome) (h : st.cache.lookup spdi = some v) :
    get_clinical_significance spdi st now remote = (v, st, false) ∧
    get_clinical_significance spdi ⟨dictInsert spdi label st.cache, st.lastCallTime⟩ now remote' =
      (label, ⟨dictInsert spdi label st.cache, st.lastCallTime⟩, false) := by
  constructor
  · simp only [get_clinical_significance, h]
  · simp only [get_clinical_significance, lookup_dictInsert_self]

/-- Witness for C5: a concrete one-entry cache. -/
theorem cache_hit_frame_witness :
    get_clinical_significance "id1" ⟨[("id1", "Benign")], 0⟩ 7 .transportError =
      ("Benign", ⟨[("id1", "Benign")], 0⟩, false) ∧
    get_clinical_significance "id1"
        ⟨dictInsert "id1" "Pathogenic" [("id1", "Benign")], 0⟩ 7 .transportError =
      ("Pathogenic", ⟨dictInsert "id1" "Pathogenic" [("id1", "Benign")], 0⟩, false) := by
  have h := cache_hit_frame "id1" "Benign" "Pathogenic" ⟨[("id1", "Benign")], 0⟩ 7
    .transportError .transportError (by with_unfolding_all rfl)
  exact ⟨h.1, h.2⟩

/-- C6: the coordinate translator maps `("chr17", 43093268, "G", "A")` to
exactly `NC_000017.11:43093267:G:A`, maps the unmapped chromosome label
`"26"` to the failure sentinel `none`, and the sentinel is distinct from
every valid output (a successful output is a `some` of a nonempty string,
never confusable with the sentinel). -/
theorem convert_to_spdi_examples :
    convert_to_spdi "chr17" 43093268 "G" "A" = some "NC_000017.11:43093267:G:A" ∧
    convert_to_spdi "26" 100 "A" "T" = none ∧
    ∀ c p r a s, convert_to_spdi c p r a = some s →
      s ≠ "" ∧ some s ≠ (none : Option String) := by
  refine ⟨by decide, by decide, ?_⟩
  intro c p r a s h
  simp only [convert_to_spdi] at h
  cases hl : (chromMapping.lookup (cleanChrom c)).filter (· ≠ "") with
  | none => rw [hl] at h; cases h
  | some seqId =>
    rw [hl] at h
    injection h with h
    have hid : seqId ≠ "" := by
      have := pred_of_filter_eq_some _ _ _ hl
      simpa using this
    have hidlen : 0 < seqId.length := by
      cases hsq : seqId.data with
      | nil =>
        exact absurd (by cases seqId; cases hsq; rfl) hid
      | cons x xs =>
        simp [String.length, hsq]
    constructor
    · intro hc
      have h0 : (seqId ++ ":" ++ toString (p - 1) ++ ":" ++ r ++ ":" ++ a).length = 0 := by
        rw [h, hc]
        rfl
      have hcol : (":" : String).length = 1 := rfl
      simp only [String.length_append, hcol] at h0
      omega
    · simp

/-- Witness for C6: the distinctness conjunct applied at the successful
`chr17` translation. -/
theorem convert_to_spdi_examples_witness :
    "NC_000017.11:43093267:G:A" ≠ "" ∧
    some "NC_000017.11:43093267:G:A" ≠ (none : Option String) :=
  convert_to_spdi_examples.2.2 "chr17" 43093268 "G" "A"
    "NC_000017.11:43093267:G:A" (by decide)

/-- C7 counterexample: the label `1chr` does not start with the prefix
token `chr` and is not a key of the table, so under the claim it would map
to the failure sentinel; the code removes the non-leading occurrence and
returns chromosome 1's accession instead. -/
theorem convert_to_spdi_strips_nonleading :
    convert_to_spdi "1chr" 100 "A" "T" = some "NC_000001.11:99:A:T" ∧
    chromMapping.lookup "1chr" = none ∧
    "1chr".data.take 3 ≠ ['c', 'h', 'r'] := by
  refine ⟨by decide, by decide, by decide⟩

/-- C7 amended: the translator removes every occurrence of the token `chr`
(leading or not) from the label before the table lookup; in particular a
label containing no occurrence of `chr` at all is looked up unchanged, and
prefixing such a label with `chr` does not change the result. -/
theorem cleanChrom_amended (c : String) (h : hasChr c.data = false) :
    cleanChrom c = c ∧
    ∀ p ref alt, convert_to_spdi ("chr" ++ c) p ref alt = convert_to_spdi c p ref alt := by
  have h1 : cleanChrom c = c := by
    simp only [cleanChrom]
    rw [removeChr_of_not_hasChr c.data h]
  have h2 : cleanChrom ("chr" ++ c) = cleanChrom c := by
    simp only [cleanChrom]
    rw [String.data_append]
    rfl
  exact ⟨h1, fun p ref alt => by simp only [convert_to_spdi]; rw [h2]⟩

/-- Witness for C7's amended claim at the label `17`. -/
theorem cleanChrom_amended_witness :
    cleanChrom "17" = "17" ∧
    convert_to_spdi ("chr" ++ "17") 43093268 "G" "A" = convert_to_spdi "17" 43093268 "G" "A" := by
  have h := cleanChrom_amended "17" (by decide)
  exact ⟨h.1, h.2 43093268 "G" "A"⟩

/-- C9 counterexample: a cache file that exists but cannot be read
(`PermissionError` from `open`) is caught by neither `except` clause, so
construction raises instead of starting with an empty mapping. -/
theorem load_cache_unreadable_raises :
    load_cache (fun _ => none) .permissionDenied = .error .permissionError := rfl

/-- C9 amended: an absent cache file, or one whose contents fail JSON
decoding, yields the empty mapping without an error; only those two
conditions are converted — a read failure such as a permission error
propagates out of construction. -/
theorem load_cache_absent_or_malformed (parseJson : String → Option (List (String × String)))
    (s : String) (h : parseJson s = none) :
    load_cache parseJson .notFound = .ok [] ∧
    load_cache parseJson (.content s) = .ok [] := by
  constructor
  · rfl
  · simp only [load_cache, h]

/-- Witness for C9's amended claim: a parser rejecting everything, on the
contents `not json`. -/
theorem load_cache_absent_or_malformed_witness :
    load_cache (fun _ => none) .notFound = .ok [] ∧
    load_cache (fun _ => none) (.content "not json") = .ok [] :=
  load_cache_absent_or_malformed (fun _ => none) "not json" rfl

theorem le_acquireUpdate (last now : ℚ) : last + 1 ≤ acquireUpdate last now := by
  simp only [acquireUpdate, sleepFor]
  split
  · linarith
  · linarith

theorem now_le_acquireUpdate (last now : ℚ) : now ≤ acquireUpdate last now := by
  simp only [acquireUpdate, sleepFor]
  split
  · linarith
  · linarith

theorem miss_timestamp_and_call (spdi : String) (st : ClientState) (now : ℚ)
    (remote : RemoteOutcome) (h : st.cache.lookup spdi = none) :
    (get_clinical_significance spdi st now remote).2.1.lastCallTime =
      acquireUpdate st.lastCallTime now ∧
    (get_clinical_significance spdi st now remote).2.2 = true := by
  cases remote with
  | transportError => simp [get_clinical_significance, h]
  | response status body =>
    simp only [get_clinical_significance, h]
    split
    · cases body with
      | error e => simp
      | ok sv =>
        cases hsv : extractSignificance sv with
        | error e => simp [hsv]
        | ok sig => simp [hsv]
    · split
      · simp
      · simp

/-- C10: on every cache-miss call, whatever the remote outcome, the
rate-limiter timestamp is set to the post-sleep clock reading
(`acquireUpdate`), which is never earlier than the current time, and a
remote query is issued; so even a non-caching transient failure consumes
the rate-limit slot and delays the next outbound call. -/
theorem miss_always_consumes_rate_limit (spdi : String) (st : ClientState) (now : ℚ)
    (remote : RemoteOutcome) (h : st.cache.lookup spdi = none) :
    (get_clinical_significance spdi st now remote).2.1.lastCallTime =
      acquireUpdate st.lastCallTime now ∧
    (get_clinical_significance spdi st now remote).2.2 = true ∧
    now ≤ (get_clinical_significance spdi st now remote).2.1.lastCallTime := by
  obtain ⟨h1, h2⟩ := miss_timestamp_and_call spdi st now remote h
  exact ⟨h1, h2, h1 ▸ now_le_acquireUpdate st.lastCallTime now⟩

/-- Witness for C10: an empty cache, a transport error at time 5. -/
theorem miss_always_consumes_rate_limit_witness :
    (get_clinical_significance "id" ⟨[], 0⟩ 5 .transportError).2.1.lastCallTime =
      acquireUpdate 0 5 ∧
    (get_clinical_significance "id" ⟨[], 0⟩ 5 .transportError).2.2 = true ∧
    (5 : ℚ) ≤ (get_clinical_significance "id" ⟨[], 0⟩ 5 .transportError).2.1.lastCallTime :=
  miss_always_consumes_rate_limit "id" ⟨[], 0⟩ 5 .transportError rfl

/-- C8: two consecutive cache-miss calls issue their remote queries at
least one time unit apart.  The recorded `last_call_time` of each call is
the moment its query is issued (the query follows the recording
immediately); under the exact clock model the second recorded moment is at
least the first plus the fixed minimum interval of 1, for every remote
outcome of either call. -/
theorem consecutive_miss_spacing (spdi1 spdi2 : String) (st : ClientState)
    (now1 now2 : ℚ) (r1 r2 : RemoteOutcome)
    (h1 : st.cache.lookup spdi1 = none)
    (h2 : ((get_clinical_significance spdi1 st now1 r1).2.1).cache.lookup spdi2 = none) :
    ((get_clinical_significance spdi1 st now1 r1).2.1).lastCallTime =
      acquireUpdate st.lastCallTime now1 ∧
    ((get_clinical_significance spdi1 st now1 r1).2.1).lastCallTime + 1 ≤
      ((get_clinical_significance spdi2 (get_clinical_significance spdi1 st now1 r1).2.1
        now2 r2).2.1).lastCallTime := by
  obtain ⟨h4, _⟩ := miss_timestamp_and_call spdi1 st now1 r1 h1
  obtain ⟨h3, _⟩ := miss_timestamp_and_call spdi2
    (get_clinical_significance spdi1 st now1 r1).2.1 now2 r2 h2
  refine ⟨h4, ?_⟩
  rw [h3]
  exact le_acquireUpdate _ now2

/-- Witness for C8: two misses on an initially empty cache, at times 5 and
5.3 (within the minimum interval), with a 404 then a transport error. -/
theorem consecutive_miss_spacing_witness :
    ((get_clinical_significance "a" ⟨[], 0⟩ 5 (.response 404 (.ok .missing))).2.1).lastCallTime =
      acquireUpdate 0 5 ∧
    ((get_clinical_significance "a" ⟨[], 0⟩ 5 (.response 404 (.ok .missing))).2.1).lastCallTime + 1 ≤
      ((get_clinical_significance "b"
        (get_clinical_significance "a" ⟨[], 0⟩ 5 (.response 404 (.ok .missing))).2.1
        (5 + mkRat 3 10) .transportError).2.1).lastCallTime :=
  consecutive_miss_spacing "a" "b" ⟨[], 0⟩ 5 (5 + mkRat 3 10)
    (.response 404 (.ok .missing)) .transportError rfl (by with_unfolding_all rfl)

/-- C1: on a cache miss, `get_clinical_significance` caches exactly the
permanent outcomes.  A 200 response whose body parses and yields a label
stores that label; a 404 stores `Not found in ClinVar`; any other status
returns `API Error` with the cache unchanged; a raised transport error, a
body that fails to parse, or a non-dict significance field returns `Error`
with the cache unchanged.  None of these raises. -/
theorem asymmetric_cache_policy (spdi : String) (st : ClientState) (now : ℚ)
    (h : st.cache.lookup spdi = none) :
    (∀ sv sig, extractSignificance sv = .ok sig →
      get_clinical_significance spdi st now (.response 200 (.ok sv)) =
        (sig, ⟨dictInsert spdi sig st.cache, acquireUpdate st.lastCallTime now⟩, true) ∧
      (get_clinical_significance spdi st now (.response 200 (.ok sv))).2.1.cache.lookup spdi =
        some sig) ∧
    (∀ body, get_clinical_significance spdi st now (.response 404 body) =
        ("Not found in ClinVar",
         ⟨dictInsert spdi "Not found in ClinVar" st.cache, acquireUpdate st.lastCallTime now⟩,
         true) ∧
      (get_clinical_significance spdi st now (.response 404 body)).2.1.cache.lookup spdi =
        some "Not found in ClinVar") ∧
    (∀ status body, status ≠ 200 → status ≠ 404 →
      get_clinical_significance spdi st now (.response status body) =
        ("API Error", ⟨st.cache, acquireUpdate st.lastCallTime now⟩, true)) ∧
    (get_clinical_significance spdi st now .transportError =
      ("Error", ⟨st.cache, acquireUpdate st.lastCallTime now⟩, true)) ∧
    (∀ e, get_clinical_significance spdi st now (.response 200 (.error e)) =
      ("Error", ⟨st.cache, acquireUpdate st.lastCallTime now⟩, true)) ∧
    (∀ sv e, extractSignificance sv = .error e →
      get_clinical_significance spdi st now (.response 200 (.ok sv)) =
        ("Error", ⟨st.cache, acquireUpdate st.lastCallTime now⟩, true)) := by
  refine ⟨?_, ?_, ?_, ?_, ?_, ?_⟩
  · intro sv sig hsv
    constructor
    · simp [get_clinical_significance, h, hsv]
    · simp [get_clinical_significance, h, hsv, lookup_dictInsert_self]
  · intro body
    constructor
    · simp [get_clinical_significance, h]
    · simp [get_clinical_significance, h, lookup_dictInsert_self]
  · intro status body hs200 hs404
    simp only [get_clinical_significance, h]
    rw [if_neg hs200, if_neg hs404]
  · simp [get_clinical_significance, h]
  · intro e
    simp [get_clinical_significance, h]
  · intro sv e hsv
    simp [get_clinical_significance, h, hsv]

/-- Witness for C1: empty cache, identifier `id`, time 3; one instance of
each classified outcome. -/
theorem asymmetric_cache_policy_witness :
    (get_clinical_significance "id" ⟨[], 0⟩ 3 (.response 200 (.ok (.desc "Benign"))) =
      ("Benign", ⟨dictInsert "id" "Benign" [], acquireUpdate 0 3⟩, true)) ∧
    (get_clinical_significance "id" ⟨[], 0⟩ 3 (.response 404 (.ok .missing)) =
      ("Not found in ClinVar",
       ⟨dictInsert "id" "Not found in ClinVar" [], acquireUpdate 0 3⟩, true)) ∧
    (get_clinical_significance "id" ⟨[], 0⟩ 3 (.response 500 (.ok .missing)) =
      ("API Error", ⟨[], acquireUpdate 0 3⟩, true)) ∧
    (get_clinical_significance "id" ⟨[], 0⟩ 3 .transportError =
      ("Error", ⟨[], acquireUpdate 0 3⟩, true)) ∧
    (get_clinical_significance "id" ⟨[], 0⟩ 3 (.response 200 (.error ())) =
      ("Error", ⟨[], acquireUpdate 0 3⟩, true)) ∧
    (get_clinical_significance "id" ⟨[], 0⟩ 3 (.response 200 (.ok .nonDict)) =
      ("Error", ⟨[], acquireUpdate 0 3⟩, true)) := by
  have h := asymmetric_cache_policy "id" ⟨[], 0⟩ 3 rfl
  exact ⟨(h.1 (.desc "Benign") "Benign" rfl).1, (h.2.1 (.ok .missing)).1,
    h.2.2.1 500 (.ok .missing) (by decide) (by decide), h.2.2.2.1,
    h.2.2.2.2.1 (), h.2.2.2.2.2 .nonDict () rfl⟩

theorem truncInt_nonneg_iff (q : ℚ) : 0 ≤ truncInt q ↔ -1 < q := by
  simp only [truncInt]
  split
  · rename_i hq
    constructor
    · intro h0
      by_contra hle
      push_neg at hle
      have : ⌈q⌉ ≤ -1 := Int.ceil_le.mpr (by exact_mod_cast hle)
      omega
    · intro hgt
      have : (-1 : ℤ) < ⌈q⌉ := Int.lt_ceil.mpr (by exact_mod_cast hgt)
      omega
  · rename_i hq
    push_neg at hq
    constructor
    · intro _
      linarith
    · intro _
      exact Int.le_floor.mpr (by exact_mod_cast hq)

theorem sum_update_succ (f : Fin 10 → ℕ) (j : Fin 10) :
    (∑ i : Fin 10, Function.update f j (f j + 1) i) = (∑ i : Fin 10, f i) + 1 := by
  rw [Finset.sum_update_of_mem (Finset.mem_univ j)]
  rw [Finset.sdiff_singleton_eq_erase]
  have h2 := Finset.add_sum_erase Finset.univ f (Finset.mem_univ j)
  omega

theorem buildHist_ok_spec :
    ∀ (l : List ℚ) (acc hfin : Fin 10 → ℕ), buildHist l acc = .ok hfin →
      (∑ i : Fin 10, hfin i) = (∑ i : Fin 10, acc i) + l.countP (fun af => decide (af ≤ 1)) ∧
      ∀ af ∈ l, (-1 : ℚ)/10 < af := by
  intro l
  induction l with
  | nil =>
    intro acc hfin h
    injection h with h
    subst h
    simp
  | cons af rest ih =>
    intro acc hfin h
    simp only [buildHist] at h
    split at h
    · rename_i haf1
      split at h
      · rename_i hb
        obtain ⟨hsum, hmem⟩ := ih _ hfin h
        rw [sum_update_succ] at hsum
        have hcnt : (af :: rest).countP (fun af => decide (af ≤ 1)) =
            rest.countP (fun af => decide (af ≤ 1)) + 1 := by
          rw [List.countP_cons_of_pos]
          simpa using haf1
        have haf : (-1 : ℚ)/10 < af := by
          have h0 : (0 : ℤ) ≤ truncInt (af * 10) := by
            have := hb.1
            have h9 : (0 : ℤ) ≤ 9 := by omega
            rcases le_min_iff.mp this with ⟨ht, _⟩
            exact ht
          have := (truncInt_nonneg_iff (af * 10)).mp h0
          linarith
        refine ⟨by omega, ?_⟩
        intro x hx
        rcases List.mem_cons.mp hx with hx | hx
        · subst hx; exact haf
        · exact hmem x hx
      · cases h
    · rename_i haf1
      obtain ⟨hsum, hmem⟩ := ih _ hfin h
      have hcnt : (af :: rest).countP (fun af => decide (af ≤ 1)) =
          rest.countP (fun af => decide (af ≤ 1)) := by
        rw [List.countP_cons_of_neg]
        simpa using haf1
      refine ⟨by omega, ?_⟩
      intro x hx
      rcases List.mem_cons.mp hx with hx | hx
      · subst hx
        push_neg at haf1
        linarith
      · exact hmem x hx

theorem compute_statistics_ok (variants : List Variant) (s : Stats)
    (h : compute_statistics variants = .ok s) :
    s.total = variants.length ∧ s.afValues = variants.map (·.af) ∧
    s.snps = (variants.filter (fun v => isSNP v)).length ∧
    s.indels = (variants.filter (fun v => !(isSNP v))).length ∧
    buildHist (variants.map (·.af)) (fun _ => 0) = .ok s.afHist := by
  simp only [compute_statistics] at h
  cases hb : buildHist (variants.map (·.af)) (fun _ => 0) with
  | error e =>
    rw [hb] at h
    cases h
  | ok hist =>
    rw [hb] at h
    injection h with h
    subst h
    exact ⟨rfl, rfl, rfl, rfl, rfl⟩

/-- A single retained variant whose allele frequency is −0.05, outside the
claimed valid range `[0,1]`. -/
def negAfVariant : Variant := ⟨"1", 100, "A", "T", mkRat (-1) 20, 15, 50⟩

/-- C2 counterexample: for the variant list `[negAfVariant]` (allele
frequency −0.05, outside `[0,1]`), `compute_statistics` succeeds, the
histogram bin counts sum to 1 = `total_variants` — the value lands in the
first bin because `int(-0.5)` truncates to 0 — yet not every frequency
value lies in `[0,1]`.  This refutes the claimed "equality holds iff every
allele-frequency value lies in [0,1]" (and the claimed exclusion of all
out-of-range values from the histogram). -/
theorem histogram_negative_af_counted :
    (compute_statistics [negAfVariant]).toOption.map statsHistSum = some 1 ∧
    (compute_statistics [negAfVariant]).toOption.map (·.total) = some 1 ∧
    (compute_statistics [negAfVariant]).toOption.map
      (fun s => s.afValues.all (fun af => decide (0 ≤ af) && decide (af ≤ 1))) = some false := by
  refine ⟨?_, ?_, ?_⟩ <;> with_unfolding_all decide

/-- C2 amended: whenever `compute_statistics` returns (it raises `KeyError`
when some frequency is ≤ −0.1), the histogram bin counts sum to at most
`total_variants`, with equality iff every frequency value lies in
`(−0.1, 1]` — not `[0,1]`: values in `(−0.1, 0)` are counted in the first
bin.  Values above 1 are excluded from the histogram but still counted in
the total and SNP/indel tallies and kept in the raw `af_values` sequence. -/
theorem histogram_sum_bound (variants : List Variant) (s : Stats)
    (h : compute_statistics variants = .ok s) :
    statsHistSum s ≤ s.total ∧
    (statsHistSum s = s.total ↔ ∀ af ∈ s.afValues, (-1 : ℚ)/10 < af ∧ af ≤ 1) ∧
    s.total = variants.length ∧
    s.afValues = variants.map (·.af) ∧
    s.snps + s.indels = s.total := by
  obtain ⟨htot, hafv, hsnp, hind, hhist⟩ := compute_statistics_ok variants s h
  obtain ⟨hsum, hmem⟩ := buildHist_ok_spec _ _ _ hhist
  simp only [Finset.sum_const_zero, zero_add] at hsum
  have hlen : (variants.map (·.af)).length = variants.length := List.length_map _ _
  constructor
  · rw [statsHistSum, hsum, htot, ← hlen]
    exact List.countP_le_length _
  refine ⟨?_, htot, hafv, ?_⟩
  · rw [statsHistSum, hsum, htot, ← hlen, hafv]
    rw [List.countP_eq_length]
    constructor
    · intro hall af haf
      exact ⟨hmem af haf, by simpa using hall af haf⟩
    · intro hall af haf
      simpa using (hall af haf).2
  · rw [hsnp, hind, htot]
    exact (List.length_eq_length_filter_add (l := variants) (fun v => isSNP v)).symm

/-- A single retained variant with allele frequency 0.5. -/
def halfAfVariant : Variant := ⟨"1", 100, "A", "T", mkRat 1 2, 15, 50⟩

/-- The statistics record `compute_statistics` produces for
`[halfAfVariant]`. -/
def halfAfStats : Stats :=
  ⟨1, 1, 0, 100, 0, some "1", Function.update (fun _ => 0) 5 1,
   [mkRat 1 2], [15], [("1", 1)]⟩

/-- Witness for C2's amended claim: one variant with frequency 0.5. -/
theorem histogram_sum_bound_witness :
    statsHistSum halfAfStats ≤ halfAfStats.total ∧
    (statsHistSum halfAfStats = halfAfStats.total ↔
      ∀ af ∈ halfAfStats.afValues, (-1 : ℚ)/10 < af ∧ af ≤ 1) ∧
    halfAfStats.total = [halfAfVariant].length ∧
    halfAfStats.afValues = [halfAfVariant].map (·.af) ∧
    halfAfStats.snps + halfAfStats.indels = halfAfStats.total :=
  histogram_sum_bound [halfAfVariant] halfAfStats (by with_unfolding_all rfl)

/-- The label one variant receives inside the annotation loop: translate,
then on a truthy SPDI consult the client, otherwise `Invalid format`. -/
def resolveLabel (lookup : String → String) (v : Variant) : String :=
  match convert_to_spdi v.chrom v.pos v.ref v.alt with
  | some spdi => if spdi = "" then "Invalid format" else lookup spdi
  | none => "Invalid format"

theorem annotateLoop_fst (lookup : String → String) :
    ∀ l : List Variant,
      (annotateLoop lookup l).1 = l.map (fun v => (v, resolveLabel lookup v)) := by
  intro l
  induction l with
  | nil => rfl
  | cons v rest ih =>
    cases hc : convert_to_spdi v.chrom v.pos v.ref v.alt with
    | none =>
      simp only [annotateLoop, hc, List.map_cons]
      rw [ih]
      simp [resolveLabel, hc]
    | some spdi =>
      by_cases hsp : spdi = ""
      · simp only [annotateLoop, hc, if_pos hsp, List.map_cons]
        rw [ih]
        simp [resolveLabel, hc, hsp]
      · simp only [annotateLoop, hc, if_neg hsp, List.map_cons]
        rw [ih]
        simp [resolveLabel, hc, hsp]

theorem annotateLoop_snd (lookup : String → String) :
    ∀ l : List Variant,
      (annotateLoop lookup l).2 =
        l.filterMap (fun v =>
          (convert_to_spdi v.chrom v.pos v.ref v.alt).filter (fun s => !(s == ""))) := by
  intro l
  induction l with
  | nil => rfl
  | cons v rest ih =>
    cases hc : convert_to_spdi v.chrom v.pos v.ref v.alt with
    | none =>
      have hb : ((none : Option String).filter (fun s => !(s == ""))) = none := rfl
      simp only [annotateLoop, hc, List.filterMap_cons, hb]
      exact ih
    | some spdi =>
      by_cases hsp : spdi = ""
      · have hb : ((some spdi).filter (fun s => !(s == ""))) = none := by
          simp [Option.filter, hsp]
        simp only [annotateLoop, hc, if_pos hsp, List.filterMap_cons, hb]
        exact ih
      · have hb : ((some spdi).filter (fun s => !(s == ""))) = some spdi := by
          simp [Option.filter, hsp]
        simp only [annotateLoop, hc, if_neg hsp, List.filterMap_cons, hb]
        rw [ih]

/-- C3: with at least 1500 retained variants, the orchestrator annotates
exactly the first 300 variants (in filtered order) with the
translate-then-lookup label (`Invalid format` on translation failure),
labels every variant from index 300 on with `Not queried`, sends to the
client exactly the truthy translations of the first 300 (so a variant
whose translation fails triggers no remote call), writes exactly the first
1000 annotated variants to the bounded listing, and computes the
statistics over the full retained set (whose variants the annotation
preserves). -/
theorem orchestrator_caps (lookup : String → String) (variants : List Variant)
    (h : 1500 ≤ variants.length) :
    (runMain lookup variants).annotated.length = variants.length ∧
    (∀ i : ℕ, i < 300 →
      (runMain lookup variants).annotated[i]? =
        (variants[i]?).map (fun v => (v, resolveLabel lookup v))) ∧
    (∀ i : ℕ, 300 ≤ i →
      (runMain lookup variants).annotated[i]? =
        (variants[i]?).map (fun v => (v, "Not queried"))) ∧
    (runMain lookup variants).queries =
      (variants.take 300).filterMap (fun v =>
        (convert_to_spdi v.chrom v.pos v.ref v.alt).filter (fun s => !(s == ""))) ∧
    (runMain lookup variants).limited.length = 1000 ∧
    (∀ i : ℕ, i < 1000 →
      (runMain lookup variants).limited[i]? = (runMain lookup variants).annotated[i]?) ∧
    (runMain lookup variants).stats = compute_statistics variants ∧
    (runMain lookup variants).annotated.map Prod.fst = variants := by
  have htake : (variants.take 300).length = 300 := by
    rw [List.length_take]
    omega
  have hann : (runMain lookup variants).annotated =
      (variants.take 300).map (fun v => (v, resolveLabel lookup v)) ++
      (variants.drop 300).map (fun v => (v, "Not queried")) := by
    simp only [runMain]
    rw [annotateLoop_fst]
  have hfstlen : ((variants.take 300).map (fun v => (v, resolveLabel lookup v))).length = 300 := by
    rw [List.length_map, htake]
  have hlen : (runMain lookup variants).annotated.length = variants.length := by
    rw [hann, List.length_append, hfstlen, List.length_map, List.length_drop]
    omega
  have hltd : (runMain lookup variants).limited = (runMain lookup variants).annotated.take 1000 :=
    rfl
  refine ⟨hlen, ?_, ?_, ?_, ?_, ?_, rfl, ?_⟩
  · intro i hi
    rw [hann, List.getElem?_append, if_pos (by rw [hfstlen]; exact hi), List.getElem?_map,
      List.getElem?_take, if_pos hi]
  · intro i hi
    rw [hann, List.getElem?_append_right (by rw [hfstlen]; exact hi), List.getElem?_map,
      hfstlen, List.getElem?_drop]
    have hidx : 300 + (i - 300) = i := by omega
    rw [hidx]
  · simp only [runMain]
    rw [annotateLoop_snd]
  · rw [hltd, List.length_take, hlen]
    omega
  · intro i hi
    rw [hltd, List.getElem?_take, if_pos hi]
  · rw [hann, List.map_append, List.map_map, List.map_map]
    have h1 : (Prod.fst ∘ fun v => (v, resolveLabel lookup v)) = (id : Variant → Variant) := rfl
    have h2 : (Prod.fst ∘ fun v => (v, ("Not queried" : String))) = (id : Variant → Variant) := rfl
    rw [h1, h2, List.map_id, List.map_id, List.take_append_drop]

/-- A plain retained variant used to build the C3 witness input. -/
def plainVariant : Variant := ⟨"1", 100, "A", "T", mkRat 1 2, 15, 50⟩

/-- Witness for C3: 1500 identical retained variants and a constant label
oracle; the positional conclusions instantiated at indices 0, 299, 300 and
999. -/
theorem orchestrator_caps_witness :
    1500 ≤ (List.replicate 1500 plainVariant).length ∧
    (runMain (fun _ => "Benign") (List.replicate 1500 plainVariant)).annotated.length = 1500 ∧
    (runMain (fun _ => "Benign") (List.replicate 1500 plainVariant)).annotated[299]? =
      ((List.replicate 1500 plainVariant)[299]?).map
        (fun v => (v, resolveLabel (fun _ => "Benign") v)) ∧
    (runMain (fun _ => "Benign") (List.replicate 1500 plainVariant)).annotated[300]? =
      ((List.replicate 1500 plainVariant)[300]?).map (fun v => (v, "Not queried")) ∧
    (runMain (fun _ => "Benign") (List.replicate 1500 plainVariant)).limited.length = 1000 ∧
    (runMain (fun _ => "Benign") (List.replicate 1500 plainVariant)).limited[999]? =
      (runMain (fun _ => "Benign") (List.replicate 1500 plainVariant)).annotated[999]? ∧
    (runMain (fun _ => "Benign") (List.replicate 1500 plainVariant)).stats =
      compute_statistics (List.replicate 1500 plainVariant) := by
  have hl : 1500 ≤ (List.replicate 1500 plainVariant).length := by
    rw [List.length_replicate]
  have h := orchestrator_caps (fun _ => "Benign") (List.replicate 1500 plainVariant) hl
  refine ⟨hl, ?_, h.2.1 299 (by omega), h.2.2.1 300 (by omega), h.2.2.2.2.1,
    h.2.2.2.2.2.1 999 (by omega), h.2.2.2.2.2.2.1⟩
  rw [h.1, List.length_replicate]

end VcfPipeline
